import Mathlib

/-!
Verification of the `@syntrojs/singleton` registry (`src/registry.ts`).

The source is a single TypeScript class `Registry` backed by a
`Map<string, RegistryEntry>` plus a module-level singleton accessor
`getRegistry`. We embed it shallowly:

* A JS object reference is modelled by `JSValue`: a `ref` number standing
  for the object's identity, and its (optional) runtime constructor.
  Reference identity of two values is equality of their `ref` fields;
  the registry stores `JSValue`s verbatim, so returning "the same
  reference" is returning an equal `JSValue`.
* The JS `Map` is modelled by a list of entries in insertion order
  (`register` only inserts keys that are absent, so an append-only
  association list is an exact model, including `Map` iteration order).
* A thrown JS `Error` is modelled by `Except.error msg` carrying the
  exact message string built by the source.
-/

/-- A JS constructor function: an object with a `name` property
(which may be absent or the empty string, e.g. for anonymous classes). -/
structure Ctor where
  id : Nat
  name : Option String
deriving Repr, DecidableEq

/-- The built-in `Object` constructor, used by the source as the fallback
type handle: `instanceObj.constructor || Object` (line 38). -/
def objectCtor : Ctor := ⟨0, some "Object"⟩

/-- A JS value as seen by the registry: an opaque reference (`ref` models
reference identity) together with what `instanceObj.constructor` yields —
`none` models `undefined` (primitive/typeless values). -/
structure JSValue where
  ref : Nat
  ctor : Option Ctor
deriving Repr, DecidableEq

/-- `RegistryEntry` (source lines 4–9): `name`, `instance`, `type` label,
and the retained constructor handle. `inst` renders the source field
`instance` (a Lean keyword). -/
structure RegistryEntry where
  name : String
  inst : JSValue
  type : String
  ctor : Ctor
deriving Repr, DecidableEq

/-- The `Registry` class state: its private `#entries` map, modelled as
the list of entries in insertion order. -/
structure Registry where
  entries : List RegistryEntry
deriving Repr, DecidableEq

/-- `Registry.has` (source lines 75–77): `this.#entries.has(name)`. -/
def Registry.has (r : Registry) (name : String) : Bool :=
  r.entries.any (fun e => e.name = name)

/-- JS truthiness test for a `string | undefined` value: `undefined` and
the empty string are falsy. -/
def strTruthy : Option String → Bool
  | none => false
  | some s => !(s = "")

/-- Source line 32: `instanceObj.constructor?.name || "Unknown"`.
Optional chaining yields `undefined` when the constructor is absent;
`|| "Unknown"` replaces any falsy name (absent or `""`). -/
def constructorNameOf (v : JSValue) : String :=
  match v.ctor with
  | none => "Unknown"
  | some c => if strTruthy c.name then c.name.getD "Unknown" else "Unknown"

/-- The message of the error thrown by `register` on a duplicate name
(source line 27). -/
def duplicateNameError (name : String) : String :=
  "Instance \x27" ++ name ++ "\x27 already registered"

/-- The message of the error thrown by `get` on a missing name
(source line 54). -/
def notFoundError (name : String) : String :=
  "Instance \x27" ++ name ++ "\x27 not found"

/-- `Registry.register` (source lines 25–42). Throws when the name is
already present; otherwise builds the entry with
`type: type || constructorName` and
`constructor: instanceObj.constructor || Object`, and inserts it.
`type?` is the optional `type` parameter (`none` models omitting it). -/
def Registry.register (r : Registry) (name : String) (inst : JSValue)
    (type? : Option String) : Except String Registry :=
  if r.has name then
    Except.error (duplicateNameError name)
  else
    let constructorName := constructorNameOf inst
    let typeLabel := if strTruthy type? then type?.getD constructorName
                     else constructorName
    let ctorHandle := inst.ctor.getD objectCtor
    Except.ok ⟨r.entries ++ [⟨name, inst, typeLabel, ctorHandle⟩]⟩

/-- `Registry.get` (source lines 51–57): looks the name up and throws when
the entry is absent (`if (!entry)`), otherwise returns the stored
instance. -/
def Registry.get (r : Registry) (name : String) : Except String JSValue :=
  match r.entries.find? (fun e => e.name = name) with
  | none => Except.error (notFoundError name)
  | some e => Except.ok e.inst

/-- `Registry.getEntry` (source lines 65–67): `this.#entries.get(name)`,
returning `undefined` (here `none`) when absent. -/
def Registry.getEntry (r : Registry) (name : String) : Option RegistryEntry :=
  r.entries.find? (fun e => e.name = name)

/-- `Registry.list` (source lines 84–89): maps every stored entry to its
`{name, type}` pair, in `Map` iteration (= insertion) order. -/
def Registry.list (r : Registry) : List (String × String) :=
  r.entries.map (fun e => (e.name, e.type))

/-- `Registry.clear` (source lines 94–96): `this.#entries.clear()`. -/
def Registry.clear (_r : Registry) : Registry :=
  ⟨[]⟩

/-- A fresh `new Registry()` (source line 100). -/
def Registry.new : Registry := ⟨[]⟩

/-- One registry API call that can mutate the state (only `register`
does, besides `clear`; `get`/`has`/`getEntry`/`list` are reads). -/
inductive Op where
  | register (name : String) (inst : JSValue) (type? : Option String)
  | clear
deriving Repr, DecidableEq

/-- Run one call against the state: a throwing `register` leaves the
caller's registry exactly as it was. -/
def applyOp (r : Registry) : Op → Registry
  | Op.register n x t =>
    match r.register n x t with
    | Except.ok r' => r'
    | Except.error _ => r
  | Op.clear => r.clear

/-- Run a sequence of calls. -/
def applyOps (r : Registry) : List Op → Registry
  | [] => r
  | op :: ops => applyOps (applyOp r op) ops

/-- Does a call sequence contain a `clear`? -/
def hasClear : List Op → Bool
  | [] => false
  | Op.clear :: _ => true
  | Op.register _ _ _ :: ops => hasClear ops

/-!
The module-level singleton (source lines 100–109). The module holds one
heap-allocated `Registry` object; `getRegistry` returns the reference
stored in the module constant `registryInstance`. We model the heap of
registry objects explicitly so that "the same reference" is a checkable
statement: references are indices into `heap`.
-/

/-- The state of the loaded module: a heap of `Registry` objects and the
reference held by the module constant `registryInstance`
(source line 100). -/
structure ModuleState where
  heap : List Registry
  registryInstance : Nat
deriving Repr, DecidableEq

/-- The module state right after evaluation of
`const registryInstance = new Registry()`: one freshly allocated,
empty registry. -/
def initialModule : ModuleState := ⟨[Registry.new], 0⟩

/-- `getRegistry` (source lines 107–109): returns the reference stored in
the module constant. -/
def getRegistry (s : ModuleState) : Nat :=
  s.registryInstance

/-- Dereference a registry reference in the module heap. -/
def ModuleState.readReg (s : ModuleState) (ref : Nat) : Option Registry :=
  s.heap[ref]?

/-- Mutate the registry object behind a reference in place (a method call
through that reference). -/
def ModuleState.mutateReg (s : ModuleState) (ref : Nat)
    (f : Registry → Registry) : ModuleState :=
  match s.heap[ref]? with
  | none => s
  | some r => ⟨s.heap.set ref (f r), s.registryInstance⟩

/-!
Helper lemmas about the embedded operations.
-/

/-- The entry `register` builds on the success path (source lines 34–39). -/
def mkEntry (n : String) (x : JSValue) (t : Option String) : RegistryEntry :=
  ⟨n, x,
   if strTruthy t then t.getD (constructorNameOf x) else constructorNameOf x,
   x.ctor.getD objectCtor⟩

lemma register_eq_ok {r : Registry} {n : String} {x : JSValue}
    {t : Option String} (h : r.has n = false) :
    r.register n x t = Except.ok ⟨r.entries ++ [mkEntry n x t]⟩ := by
  simp [Registry.register, mkEntry, h]

lemma register_eq_error {r : Registry} {n : String} {x : JSValue}
    {t : Option String} (h : r.has n = true) :
    r.register n x t = Except.error (duplicateNameError n) := by
  simp [Registry.register, h]

lemma find?_name_eq_none_iff (r : Registry) (n : String) :
    r.entries.find? (fun e => e.name = n) = none ↔ r.has n = false := by
  simp [Registry.has, List.any_eq_false, List.find?_eq_none]

lemma find?_name_of_has {r : Registry} {n : String} (h : r.has n = true) :
    ∃ e, r.entries.find? (fun e => e.name = n) = some e := by
  cases hfind : r.entries.find? (fun e => e.name = n) with
  | some e => exact ⟨e, rfl⟩
  | none =>
    rw [find?_name_eq_none_iff] at hfind
    simp [hfind] at h

lemma find?_append_new {r : Registry} {n : String} (h : r.has n = false)
    (e : RegistryEntry) (he : e.name = n) :
    (r.entries ++ [e]).find? (fun e => e.name = n) = some e := by
  rw [List.find?_append, (find?_name_eq_none_iff r n).mpr h]
  simp [List.find?_cons, he]

lemma getEntry_after_register {r : Registry} {n : String} {x : JSValue}
    {t : Option String} {r' : Registry}
    (hreg : r.register n x t = Except.ok r') :
    r'.getEntry n = some (mkEntry n x t) := by
  by_cases h : r.has n = true
  · rw [register_eq_error h] at hreg; cases hreg
  · have h' : r.has n = false := by simpa using h
    rw [register_eq_ok h'] at hreg
    cases hreg
    exact find?_append_new h' (mkEntry n x t) rfl

lemma get_eq_of_getEntry {r : Registry} {n : String} {e : RegistryEntry}
    (h : r.getEntry n = some e) : r.get n = Except.ok e.inst := by
  unfold Registry.getEntry at h
  unfold Registry.get
  rw [h]

lemma get_after_register {r : Registry} {n : String} {x : JSValue}
    {t : Option String} {r' : Registry}
    (hreg : r.register n x t = Except.ok r') :
    r'.get n = Except.ok x :=
  get_eq_of_getEntry (getEntry_after_register hreg)

lemma get_applyOp_register {r : Registry} {n : String} {v : JSValue}
    (h : r.get n = Except.ok v) (m : String) (x : JSValue)
    (t : Option String) :
    (applyOp r (Op.register m x t)).get n = Except.ok v := by
  by_cases hm : r.has m = true
  · simp only [applyOp, register_eq_error hm]
    exact h
  · have hm' : r.has m = false := by simpa using hm
    simp only [applyOp, register_eq_ok hm']
    unfold Registry.get at h ⊢
    cases hfind : r.entries.find? (fun e => e.name = n) with
    | none => rw [hfind] at h; cases h
    | some e =>
      rw [hfind] at h
      rw [List.find?_append, hfind]
      simpa using h

lemma get_applyOps_preserved (ops : List Op) {r : Registry} {n : String}
    {v : JSValue} (h : r.get n = Except.ok v) (hc : hasClear ops = false) :
    (applyOps r ops).get n = Except.ok v := by
  induction ops generalizing r with
  | nil => exact h
  | cons op ops ih =>
    cases op with
    | register m x t =>
      exact ih (get_applyOp_register h m x t) (by simpa [hasClear] using hc)
    | clear => simp [hasClear] at hc

/-- The uniqueness invariant of §3: registered names are pairwise
distinct. -/
def Registry.wf (r : Registry) : Prop :=
  (r.entries.map RegistryEntry.name).Nodup

lemma wf_new : Registry.new.wf := by
  simp [Registry.new, Registry.wf]

lemma wf_applyOp {r : Registry} (op : Op) (h : r.wf) : (applyOp r op).wf := by
  cases op with
  | clear => simp [applyOp, Registry.clear, Registry.wf]
  | register m x t =>
    by_cases hm : r.has m = true
    · simp only [applyOp, register_eq_error hm]
      exact h
    · have hm' : r.has m = false := by simpa using hm
      simp only [applyOp, register_eq_ok hm']
      unfold Registry.wf at h ⊢
      simp only [List.map_append]
      refine List.Nodup.append h (by simp) ?_
      intro a ha hb
      simp [mkEntry] at hb
      subst hb
      rw [Registry.has, List.any_eq_false] at hm'
      simp only [List.mem_map] at ha
      obtain ⟨e, he, hname⟩ := ha
      exact absurd (by simpa using hname) (by simpa using hm' e he)

lemma wf_applyOps (ops : List Op) : (applyOps Registry.new ops).wf := by
  have : ∀ r : Registry, r.wf → (applyOps r ops).wf := by
    induction ops with
    | nil => intro r h; exact h
    | cons op ops ih => intro r h; exact ih _ (wf_applyOp op h)
  exact this _ wf_new

/-!
Concrete states used by the witnesses.
-/

/-- The registry after `register("a", ⟨1, none⟩)` on a fresh registry. -/
def reg₁ : Registry := ⟨[⟨"a", ⟨1, none⟩, "Unknown", objectCtor⟩]⟩

/-- A value whose runtime constructor is named `TestClass`. -/
def testVal : JSValue := ⟨2, some ⟨5, some "TestClass"⟩⟩

/-- The registry after `register("svc", testVal)` on a fresh registry. -/
def regTest : Registry :=
  ⟨[⟨"svc", testVal, "TestClass", ⟨5, some "TestClass"⟩⟩]⟩

/-!
The claims.
-/

/-- C1: for every name `n` not currently registered and every instance
`x`, after a successful `register(n, x, type?)`, `get(n)` returns the very
same reference `x`, and keeps doing so across any further sequence of API
calls that does not contain `clear()`. -/
theorem register_then_get_identity (r : Registry) (n : String) (x : JSValue)
    (t : Option String) (r' : Registry)
    (h : r.has n = false) (hreg : r.register n x t = Except.ok r') :
    ∀ ops : List Op, hasClear ops = false →
      (applyOps r' ops).get n = Except.ok x := by
  intro ops hc
  exact get_applyOps_preserved ops (get_after_register hreg) hc

theorem register_then_get_identity_witness :
    Registry.new.has "a" = false ∧
    Registry.new.register "a" ⟨1, none⟩ none = Except.ok reg₁ ∧
    ∀ ops : List Op, hasClear ops = false →
      (applyOps reg₁ ops).get "a" = Except.ok ⟨1, none⟩ :=
  ⟨rfl, rfl,
   register_then_get_identity Registry.new "a" ⟨1, none⟩ none reg₁ rfl rfl⟩

/-- C2: when `n` is already present, a second `register(n, y, type?)`
fails with the duplicate-name error, the mapping is left exactly as it
was, and `get(n)` still returns the originally registered instance. -/
theorem register_duplicate_fails_unchanged (r : Registry) (n : String)
    (y : JSValue) (t : Option String) (h : r.has n = true) :
    r.register n y t = Except.error (duplicateNameError n) ∧
    applyOp r (Op.register n y t) = r ∧
    ∀ v : JSValue, r.get n = Except.ok v →
      (applyOp r (Op.register n y t)).get n = Except.ok v := by
  refine ⟨register_eq_error h, ?_, ?_⟩
  · simp only [applyOp, register_eq_error h]
  · intro v hv
    simpa only [applyOp, register_eq_error h] using hv

theorem register_duplicate_fails_unchanged_witness :
    reg₁.has "a" = true ∧
    (reg₁.register "a" ⟨2, none⟩ none =
       Except.error (duplicateNameError "a") ∧
     applyOp reg₁ (Op.register "a" ⟨2, none⟩ none) = reg₁ ∧
     ∀ v : JSValue, reg₁.get "a" = Except.ok v →
       (applyOp reg₁ (Op.register "a" ⟨2, none⟩ none)).get "a" =
         Except.ok v) :=
  ⟨rfl, register_duplicate_fails_unchanged reg₁ "a" ⟨2, none⟩ none rfl⟩

/-- C3: `get(n)` fails with the not-found error exactly when `n` is
absent, and returns some stored value (never a silent default) exactly
when `n` is present. -/
theorem get_fails_iff_absent (r : Registry) (n : String) :
    (r.get n = Except.error (notFoundError n) ↔ r.has n = false) ∧
    ((∃ v : JSValue, r.get n = Except.ok v) ↔ r.has n = true) := by
  by_cases hhas : r.has n = true
  · obtain ⟨e, hfind⟩ := find?_name_of_has hhas
    constructor
    · constructor
      · intro habs
        unfold Registry.get at habs
        rw [hfind] at habs
        cases habs
      · intro hfalse
        rw [hhas] at hfalse
        cases hfalse
    · exact ⟨fun _ => hhas,
        fun _ => ⟨e.inst, by unfold Registry.get; rw [hfind]⟩⟩
  · have hfalse : r.has n = false := by simpa using hhas
    have hfind : r.entries.find? (fun e => e.name = n) = none :=
      (find?_name_eq_none_iff r n).mpr hfalse
    constructor
    · exact ⟨fun _ => hfalse, fun _ => by unfold Registry.get; rw [hfind]⟩
    · constructor
      · rintro ⟨v, hv⟩
        unfold Registry.get at hv
        rw [hfind] at hv
        cases hv
      · intro h
        simp [hfalse] at h

theorem get_fails_iff_absent_witness :
    reg₁.has "b" = false ∧
    reg₁.get "b" = Except.error (notFoundError "b") :=
  ⟨rfl, (get_fails_iff_absent reg₁ "b").1.mpr rfl⟩

/-- C4: when the type argument is omitted, the stored type label is the
one derived from the instance's runtime constructor name; the derivation
yields the constructor's name when one is obtainable (e.g. `TestClass`)
and the fixed fallback `Unknown` for typeless values. -/
theorem register_infers_type_label (r : Registry) (n : String)
    (x : JSValue) (r' : Registry)
    (h : r.has n = false) (hreg : r.register n x none = Except.ok r') :
    r'.getEntry n =
      some ⟨n, x, constructorNameOf x, x.ctor.getD objectCtor⟩ ∧
    (∀ i j : Nat, constructorNameOf ⟨i, some ⟨j, some "TestClass"⟩⟩ =
      "TestClass") ∧
    (∀ v : JSValue, v.ctor = none → constructorNameOf v = "Unknown") ∧
    (∀ i j : Nat, constructorNameOf ⟨i, some ⟨j, none⟩⟩ = "Unknown") := by
  refine ⟨?_, fun i j => rfl, ?_, fun i j => rfl⟩
  · have hget := getEntry_after_register hreg
    simpa [mkEntry, strTruthy] using hget
  · intro v hv
    simp [constructorNameOf, hv]

theorem register_infers_type_label_witness :
    Registry.new.has "svc" = false ∧
    Registry.new.register "svc" testVal none = Except.ok regTest ∧
    (regTest.getEntry "svc" =
       some ⟨"svc", testVal, constructorNameOf testVal,
             testVal.ctor.getD objectCtor⟩ ∧
     (∀ i j : Nat, constructorNameOf ⟨i, some ⟨j, some "TestClass"⟩⟩ =
       "TestClass") ∧
     (∀ v : JSValue, v.ctor = none → constructorNameOf v = "Unknown") ∧
     (∀ i j : Nat, constructorNameOf ⟨i, some ⟨j, none⟩⟩ = "Unknown")) :=
  ⟨rfl, rfl,
   register_infers_type_label Registry.new "svc" testVal regTest rfl rfl⟩

/-- C5: `getRegistry()` returns the same reference on every call — also
after any mutation of the heap — and a mutation performed through one
reference obtained from the accessor is visible when reading through
another reference obtained from the accessor. -/
theorem getRegistry_singleton (s : ModuleState) (f : Registry → Registry) :
    getRegistry s = getRegistry s ∧
    (∀ a : Nat, getRegistry (s.mutateReg a f) = getRegistry s) ∧
    (s.mutateReg (getRegistry s) f).readReg (getRegistry s) =
      Option.map f (s.readReg (getRegistry s)) := by
  refine ⟨rfl, ?_, ?_⟩
  · intro a
    unfold getRegistry ModuleState.mutateReg
    cases s.heap[a]? <;> rfl
  · unfold getRegistry ModuleState.mutateReg ModuleState.readReg
    cases hget : s.heap[s.registryInstance]? with
    | none => simp [hget]
    | some r =>
      have hlt : s.registryInstance < s.heap.length := by
        by_contra hge
        push_neg at hge
        rw [List.getElem?_eq_none hge] at hget
        cases hget
      simp [hget, List.getElem?_set_self hlt]

/-- C6: on every reachable registry state, `list()` has one `(name, type)`
pair per entry, its length equals the number of distinct registered names,
it is empty exactly when nothing is registered, and its members are
exactly the registered `(name, type)` pairs. -/
theorem list_spec_reachable (ops : List Op) :
    (applyOps Registry.new ops).list.length =
      ((applyOps Registry.new ops).entries.map
        RegistryEntry.name).toFinset.card ∧
    (applyOps Registry.new ops).list.length =
      (applyOps Registry.new ops).entries.length ∧
    ((applyOps Registry.new ops).list = [] ↔
      (applyOps Registry.new ops).entries = []) ∧
    ∀ p : String × String,
      p ∈ (applyOps Registry.new ops).list ↔
      ∃ e ∈ (applyOps Registry.new ops).entries, p = (e.name, e.type) := by
  have hwf := wf_applyOps ops
  unfold Registry.wf at hwf
  refine ⟨?_, ?_, ?_, ?_⟩
  · rw [List.toFinset_card_of_nodup hwf]
    simp [Registry.list]
  · simp [Registry.list]
  · simp [Registry.list]
  · intro p
    simp [Registry.list, List.mem_map, eq_comm]

/-- C7: `has(n)` is true exactly when `n` is among the registered names
(and, being a total boolean function, never fails); for an unregistered
`n`, `has(n)` is false before `register(n, x)` and true immediately
after it. -/
theorem has_iff_present (r : Registry) (n : String) (x : JSValue)
    (t : Option String) (h : r.has n = false) :
    (∀ m : String,
      r.has m = true ↔ m ∈ r.entries.map RegistryEntry.name) ∧
    ∃ r' : Registry, r.register n x t = Except.ok r' ∧ r'.has n = true := by
  constructor
  · intro m
    simp [Registry.has, List.any_eq_true, List.mem_map]
  · refine ⟨⟨r.entries ++ [mkEntry n x t]⟩, register_eq_ok h, ?_⟩
    simp [Registry.has, mkEntry]

theorem has_iff_present_witness :
    Registry.new.has "a" = false ∧
    ((∀ m : String,
       Registry.new.has m = true ↔
         m ∈ Registry.new.entries.map RegistryEntry.name) ∧
     ∃ r' : Registry,
       Registry.new.register "a" ⟨1, none⟩ none = Except.ok r' ∧
       r'.has "a" = true) :=
  ⟨rfl, has_iff_present Registry.new "a" ⟨1, none⟩ none rfl⟩

/-- C8: `clear()` leaves no entry behind (`has` is false for every name
and `list()` is empty afterwards), never fails, is idempotent, and is a
no-op on an already-empty registry. -/
theorem clear_spec (r : Registry) (n : String) :
    (r.clear).has n = false ∧
    (r.clear).list = [] ∧
    (r.clear).clear = r.clear ∧
    Registry.clear ⟨[]⟩ = (⟨[]⟩ : Registry) :=
  ⟨rfl, rfl, rfl, rfl⟩

/-- C9: `getEntry(n)` never fails: it returns the absent marker exactly
when `n` is unregistered, and any entry it returns is a stored entry
registered under `n` (carrying the full metadata record). -/
theorem getEntry_total_spec (r : Registry) (n : String) :
    (r.getEntry n = none ↔ r.has n = false) ∧
    ∀ e : RegistryEntry, r.getEntry n = some e →
      e.name = n ∧ e ∈ r.entries := by
  constructor
  · exact find?_name_eq_none_iff r n
  · intro e he
    unfold Registry.getEntry at he
    have hmem := List.mem_of_find?_eq_some he
    have hp := List.find?_some he
    exact ⟨by simpa using hp, hmem⟩

theorem getEntry_total_spec_witness :
    reg₁.getEntry "a" = some ⟨"a", ⟨1, none⟩, "Unknown", objectCtor⟩ ∧
    ((⟨"a", ⟨1, none⟩, "Unknown", objectCtor⟩ : RegistryEntry).name = "a" ∧
     (⟨"a", ⟨1, none⟩, "Unknown", objectCtor⟩ : RegistryEntry) ∈
       reg₁.entries) :=
  ⟨rfl, (getEntry_total_spec reg₁ "a").2 _ rfl⟩

/-- C10: passing the empty string as the `type` argument behaves exactly
like omitting it — JS `type || constructorName` treats `""` as falsy — so
the stored label is the one inferred from the runtime constructor name. -/
theorem register_empty_type_falsy (r : Registry) (n : String) (x : JSValue)
    (h : r.has n = false) :
    r.register n x (some "") = r.register n x none ∧
    r.register n x (some "") =
      Except.ok ⟨r.entries ++
        [⟨n, x, constructorNameOf x, x.ctor.getD objectCtor⟩]⟩ := by
  constructor
  · simp [Registry.register, strTruthy]
  · rw [register_eq_ok h]
    simp [mkEntry, strTruthy]

theorem register_empty_type_falsy_witness :
    Registry.new.has "svc" = false ∧
    Registry.new.register "svc" testVal (some "") =
      Registry.new.register "svc" testVal none ∧
    Registry.new.register "svc" testVal (some "") =
      Except.ok ⟨[⟨"svc", testVal, constructorNameOf testVal,
                   testVal.ctor.getD objectCtor⟩]⟩ :=
  ⟨rfl,
   (register_empty_type_falsy Registry.new "svc" testVal rfl).1,
   (register_empty_type_falsy Registry.new "svc" testVal rfl).2⟩
